import Mathlib

/-!
Verification development for the NJ Foreclosure Finder ingestion,
normalization, deduplication and enrichment pipeline.

The TypeScript sources are shallowly embedded: strings are `List Char`,
JavaScript numbers are `ℚ`, nullable values are `Option`, and the host
environment (UUID generation, clock, the calendar part of `Date` parsing,
HTTP fetches, the LLM call) is passed in as explicit parameters, so every
definition is an executable total function.
-/

/-! ## JavaScript string primitives -/

/-- JavaScript whitespace (the common ASCII subset produced by the scrapers:
space, tab, newline, carriage return, vertical tab, form feed). -/
def isJsSpace (c : Char) : Bool :=
  c = ' ' || c = '\t' || c = '\n' || c = '\r' || c.toNat = 11 || c.toNat = 12

/-- lowercasing as in JS toLowerCase, restricted to ASCII, which is all the
address and status vocabulary uses. -/
def jsToLower (c : Char) : Char :=
  if 'A' ≤ c && c ≤ 'Z' then Char.ofNat (c.toNat + 32) else c

/-- membership in the character class `[a-z0-9]`. -/
def isLowerAlnum (c : Char) : Bool :=
  ('a' ≤ c && c ≤ 'z') || ('0' ≤ c && c ≤ '9')

/-- JavaScript `\w` word characters `[A-Za-z0-9_]` (used by the `\b`
boundaries in the zip regex). -/
def isWordChar (c : Char) : Bool :=
  ('A' ≤ c && c ≤ 'Z') || ('a' ≤ c && c ≤ 'z') || ('0' ≤ c && c ≤ '9') || c = '_'

def lowerList (s : List Char) : List Char := s.map jsToLower

/-- trimming as in JS trim. -/
def jsTrim (s : List Char) : List Char :=
  ((s.dropWhile isJsSpace).reverse.dropWhile isJsSpace).reverse

/-- splitting on the comma character as in JS split: always returns at
least one (possibly empty) part. -/
def splitComma : List Char → List (List Char)
  | [] => [[]]
  | c :: t =>
    match splitComma t with
    | [] => [[]]
    | h :: r => if c = ',' then [] :: h :: r else (c :: h) :: r

/-- split on the dash character, used to state the dedupe-key pattern
`[a-z0-9]+(-[a-z0-9]+)*`. -/
def splitDash : List Char → List (List Char)
  | [] => [[]]
  | c :: t =>
    match splitDash t with
    | [] => [[]]
    | h :: r => if c = '-' then [] :: h :: r else (c :: h) :: r

/-- does `needle` occur at the very front of `hay`? -/
def leadsWith : List Char → List Char → Bool
  | [], _ => true
  | _ :: _, [] => false
  | a :: as, b :: bs => a = b && leadsWith as bs

/-- substring test, as in JS includes. -/
def hasSub (needle : List Char) : List Char → Bool
  | [] => needle.isEmpty
  | c :: t => leadsWith needle (c :: t) || hasSub needle t

/-- string literal convenience. -/
def lc (s : String) : List Char := s.toList

/-! ## A fragment of `parseFloat`

`cleanMoney` feeds `parseFloat` a string already stripped of `$`, commas and
whitespace.  We model the sign/digits/decimal-point core of `parseFloat`
(exponent notation and `Infinity` never occur in money columns): the longest
numeric leading part is parsed and trailing junk is ignored; if no digit is
found the result is `NaN`, i.e. `none`. -/

def digitVal (c : Char) : ℕ := c.toNat - '0'.toNat

def digitsToNat (l : List Char) : ℕ :=
  l.foldl (fun acc c => acc * 10 + digitVal c) 0

def jsParseFloat (s : List Char) : Option ℚ :=
  let (sign, body) :=
    match s with
    | '-' :: r => ((-1 : ℚ), r)
    | '+' :: r => ((1 : ℚ), r)
    | r => ((1 : ℚ), r)
  let intPart := body.takeWhile Char.isDigit
  let rest := body.dropWhile Char.isDigit
  let fracPart :=
    match rest with
    | '.' :: r => r.takeWhile Char.isDigit
    | _ => []
  if intPart.isEmpty && fracPart.isEmpty then none
  else
    some (sign * ((digitsToNat intPart : ℚ) +
      (digitsToNat fracPart : ℚ) / ((10 : ℚ) ^ fracPart.length)))

/-! ## Data model (`src/types.ts`) -/

inductive RiskBand where
  | LOW | MODERATE | HIGH | UNKNOWN
deriving DecidableEq

inductive NormalizedStage where
  | PRE_FORECLOSURE | SHERIFF_SALE | AUCTION | REO | UNKNOWN
deriving DecidableEq

structure Address where
  full : List Char
  street : List Char
  city : List Char
  county : List Char
  state : List Char
  zip : List Char
deriving DecidableEq

structure SourceInfo where
  source_type : List Char
  source_name : List Char
  source_url : List Char
  source_reliability : Option ℚ
deriving DecidableEq

structure ForeclosureDetails where
  stage : NormalizedStage
  status : List Char
  sale_date : Option (List Char)
  opening_bid : Option ℚ
  judgment_amount : Option ℚ
  plaintiff : Option (List Char)
  defendant : Option (List Char)
  owner_phone : Option (List Char)
deriving DecidableEq

structure ValuationInfo where
  estimated_value : Option ℚ
  equity_amount : Option ℚ
  equity_pct : Option ℚ
deriving DecidableEq

structure AIAnalysis where
  ai_score : Option ℚ
  risk_band : RiskBand
  ai_summary : Option (List Char)
  rationale : Option (List Char)
deriving DecidableEq

structure Audit where
  ingestion_timestamp : List Char
  last_updated : List Char
  dedupe_key : List Char
deriving DecidableEq

structure PropertyListing where
  id : List Char
  address : Address
  source : SourceInfo
  foreclosure : ForeclosureDetails
  valuation : ValuationInfo
  ai_analysis : AIAnalysis
  audit : Audit
  occupancy : List Char
  notes : List Char
deriving DecidableEq

/-- raw scraper row (`RawListing` in `types.ts`).  The `string | number`
money fields enter as their string form; `debug_metadata?.adapter_id` is the
only metadata key the normalizer reads. -/
structure RawListing where
  raw_address : List Char
  raw_status_text : List Char
  raw_stage_hint : Option (List Char)
  raw_sale_date : Option (List Char)
  raw_opening_bid : Option (List Char)
  raw_estimated_value : Option (List Char)
  raw_plaintiff : Option (List Char)
  raw_defendant : Option (List Char)
  raw_detail_url : List Char
  source_type : List Char
  adapter_id : Option (List Char)
deriving DecidableEq

/-! ## Normalization service (`src/services/normalizationService.ts`,
the version wired into the pipeline via the `NormalizationService` class) -/

namespace Norm

/-- ambient host facilities consumed by `normalizeRawListing`: `uuidv4()`,
`new Date().toISOString()`, and the calendar parse
`new Date(text).toISOString()` (`none` models an invalid date). -/
structure NormEnv where
  uuid : List Char
  now : List Char
  dateParse : List Char → Option (List Char)

def cleanMoney (input : Option (List Char)) : Option ℚ :=
  match input with
  | none => none
  | some raw =>
    let str := jsTrim raw
    if str.isEmpty || lowerList str = lc "n/a" || lowerList str = lc "tbd" then
      none
    else
      jsParseFloat (str.filter (fun c => !(c = '$' || c = ',' || isJsSpace c)))

def invalidDateKeywords : List (List Char) :=
  [lc "adjourned", lc "postponed", lc "cancelled", lc "tbd", lc "n/a", lc "set for sale"]

def parseDate (dp : List Char → Option (List Char)) (input : Option (List Char)) :
    Option (List Char) :=
  match input with
  | none => none
  | some s =>
    if s.isEmpty then none
    else
      let lower := jsTrim (lowerList s)
      if invalidDateKeywords.any (fun k => hasSub k lower) then none
      else dp s

def computeDedupKey (street city zip : List Char) : List Char :=
  (lowerList (street ++ city ++ zip)).filter isLowerAlnum

def normalizeStage (hint : Option (List Char)) (statusRaw : List Char) : NormalizedStage :=
  let text := lowerList (hint.getD [] ++ [' '] ++ statusRaw)
  if hasSub (lc "reo") text || hasSub (lc "bank owned") text then .REO
  else if hasSub (lc "auction") text || hasSub (lc "trustee") text ||
      hasSub (lc "xome") text then .AUCTION
  else if hasSub (lc "sheriff") text || hasSub (lc "scheduled") text ||
      hasSub (lc "adjourned") text then .SHERIFF_SALE
  else if hasSub (lc "lis pendens") text || hasSub (lc "pre-foreclosure") text then
    .PRE_FORECLOSURE
  else .UNKNOWN

/-- can `/\b\d{5}\b/` match at the head of `l`, given the character `prev`
just before this position? -/
def zipHere (prev : Option Char) : List Char → Bool
  | a :: b :: c :: d :: e :: rest =>
    a.isDigit && b.isDigit && c.isDigit && d.isDigit && e.isDigit &&
    (match prev with | none => true | some p => !isWordChar p) &&
    (match rest with | [] => true | r :: _ => !isWordChar r)
  | _ => false

/-- leftmost match of `lastPart.match(/\b\d{5}\b/)`. -/
def zipScanAux (prev : Option Char) : List Char → Option (List Char)
  | [] => none
  | c :: t =>
    if zipHere prev (c :: t) then some ((c :: t).take 5)
    else zipScanAux (some c) t

def zipScan (l : List Char) : Option (List Char) := zipScanAux none l

/-- the matched zip when the scan succeeds, over the default 00000. -/
def zipOrDefault (lastPart : List Char) : List Char :=
  match zipScan lastPart with
  | some m => m
  | none => lc "00000"

def parseRawAddress (rawAddress : List Char) : Address :=
  let parts := (splitComma rawAddress).map jsTrim
  let street := if parts.length ≥ 1 then parts.headD (lc "Unknown Street") else lc "Unknown Street"
  let city := if parts.length ≥ 2 then parts.getD 1 (lc "Unknown City") else lc "Unknown City"
  let lastPart := parts.getD (parts.length - 1) []
  let zip := zipOrDefault lastPart
  { full := rawAddress
    street := street
    city := city
    county := lc "Unknown"
    state := lc "NJ"
    zip := zip }

structure ValuationPair where
  equityAmount : Option ℚ
  equityPct : Option ℚ
deriving DecidableEq

def calculateValuation (estValue openingBid : Option ℚ) : ValuationPair :=
  match estValue, openingBid with
  | some est, some bid =>
    if est > 0 then
      { equityAmount := some (est - bid), equityPct := some ((est - bid) / est * 100) }
    else { equityAmount := none, equityPct := none }
  | _, _ => { equityAmount := none, equityPct := none }

def determineHeuristicRisk (equityPct : Option ℚ) : RiskBand :=
  match equityPct with
  | none => .UNKNOWN
  | some p => if p ≥ 25 then .LOW else if p ≥ 10 then .MODERATE else .HIGH

/-- the SOURCE_RELIABILITY_SCORES table from src/constants.ts. -/
def SOURCE_RELIABILITY_SCORES : List (List Char × ℚ) :=
  [ (lc "Scraper:nj-salesweb-civilview", 85/100)
  , (lc "Scraper:auction.com", 7/10)
  , (lc "Manual Import", 95/100)
  , (lc "Public Records", 9/10)
  , (lc "API", 8/10)
  , (lc "Unknown Source", 1/2) ]

def scoreLookup (key : List Char) : Option ℚ :=
  (SOURCE_RELIABILITY_SCORES.find? (fun kv => kv.1 = key)).map Prod.snd

def getSourceReliability (raw : RawListing) : Option ℚ :=
  let fromAdapter :=
    match raw.adapter_id with
    | some aid => scoreLookup (raw.source_type ++ [':'] ++ aid)
    | none => none
  match fromAdapter with
  | some s => some s
  | none =>
    match scoreLookup raw.source_type with
    | some s => some s
    | none => scoreLookup (lc "Unknown Source")

/-- the `try` block of `normalizeRawListing` (steps 1–7). -/
def buildListing (env : NormEnv) (raw : RawListing) : PropertyListing :=
  let addressObj := parseRawAddress raw.raw_address
  let openingBid := cleanMoney raw.raw_opening_bid
  let estimatedValue := cleanMoney raw.raw_estimated_value
  let val := calculateValuation estimatedValue openingBid
  let stage := normalizeStage raw.raw_stage_hint raw.raw_status_text
  let saleDate := parseDate env.dateParse raw.raw_sale_date
  let riskBand := determineHeuristicRisk val.equityPct
  let dedupeKey := computeDedupKey addressObj.street addressObj.city addressObj.zip
  let sourceReliability := getSourceReliability raw
  {   id := env.uuid
      address := addressObj
      source :=
        { source_type := raw.source_type
          source_name := raw.adapter_id.getD (lc "Unknown Source")
          source_url := raw.raw_detail_url
          source_reliability := sourceReliability }
      foreclosure :=
        { stage := stage
          status := if raw.raw_status_text.isEmpty then lc "Unknown" else raw.raw_status_text
          sale_date := saleDate
          opening_bid := openingBid
          judgment_amount := none
          plaintiff := raw.raw_plaintiff
          defendant := raw.raw_defendant
          owner_phone := none }
      valuation :=
        { estimated_value := estimatedValue
          equity_amount := val.equityAmount
          equity_pct := val.equityPct }
      ai_analysis :=
        { ai_score := none
          risk_band := riskBand
          ai_summary := none
          rationale := none }
      audit :=
        { ingestion_timestamp := env.now
          last_updated := env.now
          dedupe_key := dedupeKey }
      occupancy := lc "Unknown"
      notes := [] }

/-- the full normalizer: the try body never throws for well-typed rows, so
the catch-returns-null branch is unreachable and the result is always
`some (buildListing env raw)`. -/
def normalizeRawListing (env : NormEnv) (raw : RawListing) : Option PropertyListing :=
  some (buildListing env raw)

end Norm

/-! ## The duplicate normalization module kept in the repository
(`normalizeStage` of the second `normalizationService` generation, the one
the unit-test suite expectations match). -/

namespace NormV2

def normalizeStage (hint : Option (List Char)) (statusRaw : List Char) : NormalizedStage :=
  let text := lowerList (hint.getD [] ++ [' '] ++ statusRaw)
  if hasSub (lc "reo") text || hasSub (lc "bank owned") text ||
      hasSub (lc "resale") text then .REO
  else if hasSub (lc "auction") text || hasSub (lc "trustee") text ||
      hasSub (lc "bid4assets") text || hasSub (lc "xome") text then .AUCTION
  else if hasSub (lc "sheriff") text || hasSub (lc "scheduled") text ||
      hasSub (lc "set for sale") text || hasSub (lc "adjourned") text then .SHERIFF_SALE
  else if hasSub (lc "lis pendens") text || hasSub (lc "nod") text ||
      hasSub (lc "pre-foreclosure") text then .PRE_FORECLOSURE
  else .UNKNOWN

end NormV2

/-! ## `src/services/dataService.ts` (CSV ingestion engine) -/

namespace DataService

def normalizeStage (rawStage rawStatus : List Char) : NormalizedStage :=
  let combined := lowerList (rawStage ++ [' '] ++ rawStatus)
  if hasSub (lc "nod") combined || hasSub (lc "lis pendens") combined then .PRE_FORECLOSURE
  else if hasSub (lc "sheriff") combined then .SHERIFF_SALE
  else if hasSub (lc "auction") combined || hasSub (lc "trustee") combined then .AUCTION
  else if hasSub (lc "reo") combined || hasSub (lc "bank-owned") combined then .REO
  else .UNKNOWN

/-- JavaScript truthiness test on a `number | null` value (`NaN` cannot
reach `calculateMetrics`, because `cleanMoney` maps it to `null`). -/
def jsFalsyNum : Option ℚ → Bool
  | none => true
  | some x => x = 0

structure MetricsPair where
  equity_amount : Option ℚ
  equity_pct : Option ℚ
deriving DecidableEq

/-- the metrics calculator guards with JS negation of both inputs, so a
zero is treated like null while a negative estimate is accepted. -/
def calculateMetrics (estValue openingBid : Option ℚ) : MetricsPair :=
  if jsFalsyNum estValue || jsFalsyNum openingBid then
    { equity_amount := none, equity_pct := none }
  else
    match estValue, openingBid with
    | some est, some bid =>
      { equity_amount := some (est - bid), equity_pct := some ((est - bid) / est * 100) }
    | _, _ => { equity_amount := none, equity_pct := none }

end DataService

/-! ## Gemini AI service (`src/services/geminiService.ts` and
`src/services/GeminiAIService.ts`) -/

namespace Gemini

/-- how the external LLM call resolves: the `ai` handle is `null` (no API
key), the request rejects, the response text is empty, `JSON.parse` throws,
or a schema-shaped analysis comes back. -/
inductive AIOutcome where
  | noKey
  | serviceError
  | emptyResponse
  | parseFailure
  | success (a : AIAnalysis)
deriving DecidableEq

def isFailure : AIOutcome → Bool
  | .success _ => false
  | _ => true

/-- the `fallback` constant in `analyzeProperty`. -/
def fallback : AIAnalysis :=
  { ai_score := some 0
    risk_band := .UNKNOWN
    ai_summary := some (lc "AI Analysis Unavailable")
    rationale := some (lc "API Key missing or service unreachable.") }

/-- the analysis entry point resolves on every path: a missing key returns
`fallback` unchanged, any caught error returns `fallback` with the
rationale replaced, and a successful call returns the parsed analysis. -/
def analyzeProperty (outcome : AIOutcome) (_property : PropertyListing) : AIAnalysis :=
  match outcome with
  | .noKey => fallback
  | .success a => a
  | _ => { fallback with rationale := some (lc "Error during AI processing.") }

/-- the GeminiAIService enrichment: replaces `ai_analysis` wholesale with
the analysis and stamps `audit.last_updated`. -/
def enrichListing (outcome : AIOutcome) (now : List Char) (listing : PropertyListing) :
    PropertyListing :=
  { listing with
      ai_analysis := analyzeProperty outcome listing
      audit := { listing.audit with last_updated := now } }

end Gemini

/-! ## Ingestion pipeline (`src/services/pipeline/ingestionPipeline.ts`)
with the in-memory repositories of `src/server.ts`. -/

namespace Pipeline

/-- the property store of `src/server.ts` (`propertiesDB`), together with a
timeline table.  The repository persists no timeline entries — the pipeline
never writes one — but the field lets the timeline-related claims be
stated. -/
structure Store where
  props : List PropertyListing
  timeline : List (List Char)
deriving DecidableEq

/-- lookup by dedupe key: first match on `audit.dedupe_key`. -/
def findByDedupeKey (st : Store) (key : List Char) : Option PropertyListing :=
  st.props.find? (fun p => p.audit.dedupe_key = key)

/-- update by id: replace the first listing whose `id` matches, leaving the
store unchanged when no id matches.  The object spread with a complete
listing replaces every field. -/
def replaceFirstById (props : List PropertyListing) (i : List Char)
    (v : PropertyListing) : List PropertyListing :=
  match props with
  | [] => []
  | p :: t => if p.id = i then v :: t else p :: replaceFirstById t i v

def updateById (st : Store) (i : List Char) (v : PropertyListing) : Store :=
  { st with props := replaceFirstById st.props i v }

def insert (st : Store) (v : PropertyListing) : Store :=
  { st with props := st.props ++ [v] }

inductive RowResult where
  | skippedNorm
  | created
  | updated
deriving DecidableEq

/-- step 2.2 of the row loop: the dedupe key recomputed from the normalized
address components. -/
def upKey (normalized : PropertyListing) : List Char :=
  Norm.computeDedupKey normalized.address.street normalized.address.city
    normalized.address.zip

/-- the `withDedupe` local of the row loop. -/
def withDedupe (normalized : PropertyListing) : PropertyListing :=
  { normalized with audit := { normalized.audit with dedupe_key := upKey normalized } }

/-- the `toInsert` local of the insert branch. -/
def mkToInsert (now2 : List Char) (dedupeKey : List Char) (enriched : PropertyListing) :
    PropertyListing :=
  { enriched with
      audit :=
        { enriched.audit with
            ingestion_timestamp :=
              if enriched.audit.ingestion_timestamp.isEmpty then now2
              else enriched.audit.ingestion_timestamp
            last_updated := now2
            dedupe_key := dedupeKey } }

/-- the `toUpdate` local of the update branch. -/
def mkToUpdate (now2 : List Char) (dedupeKey : List Char) (existingP : PropertyListing)
    (enriched : PropertyListing) : PropertyListing :=
  { enriched with
      id := existingP.id
      audit :=
        { existingP.audit with
            last_updated := now2
            dedupe_key := dedupeKey } }

/-- steps 2.2–2.5 of the row loop, for a successfully normalized listing:
compute the dedupe key, look up, enrich (via the injected `aiService`, which
never rejects), then insert or update.  `now2` is the
`new Date().toISOString()` taken inside the loop body. -/
def upsertListing (enrich : PropertyListing → PropertyListing)
    (now2 : List Char) (normalized : PropertyListing) (st : Store) : Store × RowResult :=
  match findByDedupeKey st (upKey normalized) with
  | none =>
    (insert st (mkToInsert now2 (upKey normalized) (enrich (withDedupe normalized))),
      .created)
  | some existingP =>
    (updateById st existingP.id
      (mkToUpdate now2 (upKey normalized) existingP (enrich (withDedupe normalized))),
      .updated)

/-- one iteration of the `for (const raw of rawListings)` loop in
`runAdapterForSearch`: a `null` from the normalizer is counted as a
normalization skip, everything else goes through `upsertListing`. -/
def processRow (env : Norm.NormEnv) (enrich : PropertyListing → PropertyListing)
    (now2 : List Char) (raw : RawListing) (st : Store) : Store × RowResult :=
  match Norm.normalizeRawListing env raw with
  | none => (st, .skippedNorm)
  | some normalized => upsertListing enrich now2 normalized st

structure AdapterIngestionSummary where
  adapterId : List Char
  rawCount : ℕ
  normalizedCount : ℕ
  createdCount : ℕ
  updatedCount : ℕ
  itemsSkippedNormalization : ℕ
  itemsFailedProcessing : ℕ
  error : Option (List Char)
deriving DecidableEq

def emptySummary (adapterId : List Char) : AdapterIngestionSummary :=
  { adapterId := adapterId, rawCount := 0, normalizedCount := 0, createdCount := 0
    updatedCount := 0, itemsSkippedNormalization := 0, itemsFailedProcessing := 0
    error := none }

def bumpRow (s : AdapterIngestionSummary) : RowResult → AdapterIngestionSummary
  | .skippedNorm => { s with itemsSkippedNormalization := s.itemsSkippedNormalization + 1 }
  | .created =>
    { s with normalizedCount := s.normalizedCount + 1, createdCount := s.createdCount + 1 }
  | .updated =>
    { s with normalizedCount := s.normalizedCount + 1, updatedCount := s.updatedCount + 1 }

/-- the row loop over a fetched batch. -/
def processRows (env : Norm.NormEnv) (enrich : PropertyListing → PropertyListing)
    (now2 : List Char) : List RawListing → Store → AdapterIngestionSummary →
      Store × AdapterIngestionSummary
  | [], st, s => (st, s)
  | raw :: rest, st, s =>
    let (st', r) := processRow env enrich now2 raw st
    processRows env enrich now2 rest st' (bumpRow s r)

structure NormalizedSearchParams where
  zip : Option (List Char)
  city : Option (List Char)
  county : Option (List Char)
  propertyTypes : Option (List (List Char))
  minPrice : Option ℚ
  maxPrice : Option ℚ
  stages : Option (List NormalizedStage)
deriving DecidableEq

structure SavedSearchFilters where
  zip : Option (List Char)
  city : Option (List Char)
  county : Option (List Char)
  propertyTypes : Option (List (List Char))
  minPrice : Option ℚ
  maxPrice : Option ℚ
  max_price : Option ℚ
  stages : Option (List NormalizedStage)
  cities : Option (List (List Char))
deriving DecidableEq

structure SavedSearch where
  id : List Char
  name : List Char
  filters : SavedSearchFilters
  alerts_enabled : Bool
deriving DecidableEq

/-- an injected `SourceAdapter`: `search` models one attempt of
`adapter.search(params)` (`Except.error` is a rejected promise). -/
structure SourceAdapter where
  id : List Char
  supportsState : List Char → Bool
  search : NormalizedSearchParams → Except (List Char) (List RawListing)

/-- pipeline-wide state: the store plus a count of `adapter.search`
invocations (so "no adapter was invoked" is expressible). -/
structure PipeState where
  store : Store
  adapterCalls : ℕ
deriving DecidableEq

/-- one adapter run: fetch with one retry, then stream the rows; an
adapter-level failure only sets the error field of the summary. -/
def runAdapterForSearch (env : Norm.NormEnv) (enrich : PropertyListing → PropertyListing)
    (now2 : List Char) (adapter : SourceAdapter) (params : NormalizedSearchParams)
    (s : PipeState) : AdapterIngestionSummary × PipeState :=
  let s1 : PipeState := { s with adapterCalls := s.adapterCalls + 1 }
  match adapter.search params with
  | .ok rows =>
    let base := { emptySummary adapter.id with rawCount := rows.length }
    let (st', sum) := processRows env enrich now2 rows s1.store base
    (sum, { s1 with store := st' })
  | .error _ =>
    let s2 : PipeState := { s1 with adapterCalls := s1.adapterCalls + 1 }
    match adapter.search params with
    | .ok rows =>
      let base := { emptySummary adapter.id with rawCount := rows.length }
      let (st', sum) := processRows env enrich now2 rows s2.store base
      (sum, { s2 with store := st' })
    | .error e => ({ emptySummary adapter.id with error := some e }, s2)

structure IngestionResult where
  savedSearchId : List Char
  adapterSummaries : List AdapterIngestionSummary
  startedAt : List Char
  finishedAt : List Char
deriving DecidableEq

/-- map `SavedSearch.filters` to `NormalizedSearchParams` (prefer `city`
over `cities[0]` and `maxPrice` over the legacy `max_price`). -/
def deriveParams (filters : SavedSearchFilters) : NormalizedSearchParams :=
  { zip := filters.zip
    city :=
      match filters.city with
      | some c => some c
      | none =>
        match filters.cities with
        | some (c :: _) => some c
        | _ => none
    county := filters.county
    propertyTypes := filters.propertyTypes
    minPrice := filters.minPrice
    maxPrice :=
      match filters.maxPrice with
      | some m => some m
      | none => filters.max_price
    stages := filters.stages }

/-- the adapter loop of `runForSavedSearch`. -/
def runAdapters (env : Norm.NormEnv) (enrich : PropertyListing → PropertyListing)
    (now2 : List Char) (params : NormalizedSearchParams) :
    List SourceAdapter → PipeState → List AdapterIngestionSummary × PipeState
  | [], s => ([], s)
  | adapter :: rest, s =>
    if adapter.supportsState (lc "NJ") then
      let (sum, s') := runAdapterForSearch env enrich now2 adapter params s
      let (sums, s'') := runAdapters env enrich now2 params rest s'
      (sum :: sums, s'')
    else runAdapters env enrich now2 params rest s

structure PipelineDeps where
  adapters : List SourceAdapter
  savedSearchRepo : List Char → Option SavedSearch
  enrich : PropertyListing → PropertyListing

/-- the pipeline entry point: an unknown saved-search id throws
(`Except.error`) before the adapter loop, leaving the state untouched. -/
def runForSavedSearch (deps : PipelineDeps) (env : Norm.NormEnv)
    (now2 startedAt finishedAt : List Char) (savedSearchId : List Char)
    (s : PipeState) : Except (List Char) IngestionResult × PipeState :=
  match deps.savedSearchRepo savedSearchId with
  | none => (.error (lc "SavedSearch " ++ savedSearchId ++ lc " not found"), s)
  | some savedSearch =>
    let params := deriveParams savedSearch.filters
    let (sums, s') := runAdapters env deps.enrich now2 params deps.adapters s
    (.ok
      { savedSearchId := savedSearchId
        adapterSummaries := sums
        startedAt := startedAt
        finishedAt := finishedAt }, s')

end Pipeline

/-! ## SalesWeb adapter (`src/services/adapters/salesWebAdapter.ts`) -/

namespace SalesWeb

/-- one `<tbody> <tr>` as the row loop of `search` sees it: the handler can
throw while reading the row (`throws`), skip a spacer row with fewer than
three cells (`spacer`), or reach `parseRow`, which returns `null` exactly
when the address cell is empty (`parsed none`). -/
inductive RowOutcome where
  | throws
  | spacer
  | parsed (r : Option RawListing)
deriving DecidableEq

/-- how the list page resolves: the HTTP fetch (or anything before the row
loop) throws, the expected `table.table-striped` is missing, or a table of
rows is parsed. -/
inductive PageOutcome where
  | fetchError
  | noTable
  | table (rows : List RowOutcome)
deriving DecidableEq

/-- the row-collection loop over the table body: a throwing row is caught
and logged, spacers and null parses are not pushed. -/
def collectRows : List RowOutcome → List RawListing
  | [] => []
  | .throws :: t => collectRows t
  | .spacer :: t => collectRows t
  | .parsed none :: t => collectRows t
  | .parsed (some r) :: t => r :: collectRows t

/-- detail-page enrichment of one item: generic pages are skipped; the
detail fetch and parse (`detail`) may fail (`none`), in which case the
catch returns the original item unchanged. -/
def processDetail (detail : RawListing → Option RawListing) (item : RawListing) :
    RawListing :=
  if item.raw_detail_url.isEmpty || hasSub (lc "SalesSearch") item.raw_detail_url then item
  else
    match detail item with
    | some enriched => enriched
    | none => item

/-- the detail-enrichment loop: batches of five mapped through
`processDetail` and concatenated in order. -/
def enrichListings (detail : RawListing → Option RawListing) :
    List RawListing → List RawListing
  | [] => []
  | x :: rest =>
    ((x :: rest.take 4).map (processDetail detail)) ++ enrichListings detail (rest.drop 4)
termination_by l => l.length
decreasing_by
  simp only [List.length_cons, List.length_drop]
  omega

/-- the adapter search: a whole-page failure (fetch error or missing
table) returns an empty batch instead of throwing; otherwise the surviving
rows are detail-enriched. -/
def search (detail : RawListing → Option RawListing) (page : PageOutcome) :
    List RawListing :=
  match page with
  | .fetchError => []
  | .noTable => []
  | .table rows => enrichListings detail (collectRows rows)

end SalesWeb

/-! ## Claim-support definitions -/

/-- the canonical projection underlying the dedupe key: lowercase, then keep
only `[a-z0-9]`.  Two strings "differ only in whitespace, case, or
punctuation" exactly when they have the same projection. -/
def canonAlnum (s : List Char) : List Char := (lowerList s).filter isLowerAlnum

/-- the regular expression `^[a-z0-9]+(-[a-z0-9]+)*$`: one or more nonempty
lowercase-alphanumeric groups joined by single hyphens. -/
def matchesKeyPattern (s : List Char) : Bool :=
  !s.isEmpty && (splitDash s).all (fun g => !g.isEmpty && g.all isLowerAlnum)

/-- the dedupe key a raw address string receives in `normalizeRawListing`
step 5 (parse, then key the parsed components). -/
def dedupeKeyOfRawAddress (raw : List Char) : List Char :=
  let a := Norm.parseRawAddress raw
  Norm.computeDedupKey a.street a.city a.zip

/-- the dedupe key of a raw listing (determined by its address alone). -/
def rawDedupeKey (raw : RawListing) : List Char :=
  dedupeKeyOfRawAddress raw.raw_address

/-- rows of the SalesWeb table whose parse fails (throws, spacer, or a
mandatory-address miss): exactly the rows `search` drops. -/
def isRowFailure : SalesWeb.RowOutcome → Bool
  | .throws => true
  | .spacer => true
  | .parsed none => true
  | .parsed (some _) => false

/-! ### Concrete sample data for counterexamples and witnesses -/

def sampleEnv : Norm.NormEnv :=
  { uuid := lc "uuid-1", now := lc "2024-01-01T00:00:00Z", dateParse := fun _ => none }

def sampleEnv2 : Norm.NormEnv :=
  { uuid := lc "uuid-2", now := lc "2024-01-02T00:00:00Z", dateParse := fun _ => none }

def sampleAddress : Address :=
  { full := lc "101 Maple Dr, Cherry Hill, NJ 08002"
    street := lc "101 Maple Dr"
    city := lc "Cherry Hill"
    county := lc "Unknown"
    state := lc "NJ"
    zip := lc "08002" }

/-- a stored property whose heuristic band is `Low`, as produced by a prior
ingestion of a high-equity sheriff sale. -/
def sampleListing : PropertyListing :=
  { id := lc "prop-1"
    address := sampleAddress
    source :=
      { source_type := lc "Scraper"
        source_name := lc "nj-salesweb-civilview"
        source_url := lc "https://example.org/101-maple"
        source_reliability := some (85/100) }
    foreclosure :=
      { stage := .SHERIFF_SALE
        status := lc "Scheduled"
        sale_date := none
        opening_bid := some 150000
        judgment_amount := none
        plaintiff := none
        defendant := none
        owner_phone := none }
    valuation :=
      { estimated_value := some 300000
        equity_amount := some 150000
        equity_pct := some 50 }
    ai_analysis :=
      { ai_score := none, risk_band := .LOW, ai_summary := none, rationale := none }
    audit :=
      { ingestion_timestamp := lc "2024-01-01T00:00:00Z"
        last_updated := lc "2024-01-01T00:00:00Z"
        dedupe_key := lc "101mapledrcherryhill08002" }
    occupancy := lc "Unknown"
    notes := [] }

/-- the same raw listing arriving again from the scraper. -/
def sampleRaw : RawListing :=
  { raw_address := lc "101 Maple Dr, Cherry Hill, NJ 08002"
    raw_status_text := lc "Scheduled"
    raw_stage_hint := some (lc "Sheriff Sale")
    raw_sale_date := some (lc "2024-11-15")
    raw_opening_bid := some (lc "$150,000")
    raw_estimated_value := some (lc "$300,000")
    raw_plaintiff := some (lc "US Bank Trust")
    raw_defendant := some (lc "James T. Kirk")
    raw_detail_url := lc "https://example.org/101-maple"
    source_type := lc "Scraper"
    adapter_id := some (lc "nj-salesweb-civilview") }

/-- a raw row whose address parses to nothing beyond defaults and that has
neither a price, nor a date, nor a status. -/
def sampleRawBad : RawListing :=
  { raw_address := []
    raw_status_text := []
    raw_stage_hint := none
    raw_sale_date := none
    raw_opening_bid := none
    raw_estimated_value := none
    raw_plaintiff := none
    raw_defendant := none
    raw_detail_url := []
    source_type := lc "Scraper"
    adapter_id := none }

/-- a store that already holds two distinct properties under the dedupe key
of `sampleRaw` (reachable through the dedupe-free CSV import endpoint). -/
def sampleDupStore : Pipeline.Store :=
  { props := [sampleListing, { sampleListing with id := lc "prop-2" }], timeline := [] }

def emptyStore : Pipeline.Store := { props := [], timeline := [] }

def sampleAdapter : Pipeline.SourceAdapter :=
  { id := lc "nj-salesweb-civilview"
    supportsState := fun s => s = lc "NJ"
    search := fun _ => .ok [] }

def sampleDeps : Pipeline.PipelineDeps :=
  { adapters := [sampleAdapter]
    savedSearchRepo := fun _ => none
    enrich := fun p => p }

/-! ## Supporting lemmas -/

theorem jsToLower_digit {c : Char} (h : c.isDigit = true) : jsToLower c = c := by
  unfold jsToLower
  have h9 : c ≤ '9' := by
    simp [Char.isDigit] at h
    simp [Char.le_def]
    exact h.2
  have : ¬('A' ≤ c) := by
    intro hA
    have := le_trans hA h9
    simp [Char.le_def] at this
  simp [this]

theorem isLowerAlnum_digit {c : Char} (h : c.isDigit = true) : isLowerAlnum c = true := by
  simp [Char.isDigit] at h
  simp [isLowerAlnum, Char.le_def]
  right
  exact h

theorem lower_digits (l : List Char) (h : l.all Char.isDigit = true) :
    (l.map jsToLower).filter isLowerAlnum = l := by
  induction l with
  | nil => rfl
  | cons c t ih =>
    simp only [List.all_cons, Bool.and_eq_true] at h
    simp [jsToLower_digit h.1, isLowerAlnum_digit h.1, ih h.2]

theorem zipHere_digits {prev : Option Char} {l : List Char}
    (h : Norm.zipHere prev l = true) :
    (l.take 5).all Char.isDigit = true ∧ l.take 5 ≠ [] := by
  match l with
  | a :: b :: c :: d :: e :: rest =>
    simp only [Norm.zipHere, Bool.and_eq_true] at h
    obtain ⟨⟨⟨⟨⟨⟨ha, hb⟩, hc⟩, hd⟩, he⟩, -⟩, -⟩ := h
    refine ⟨?_, by simp⟩
    simp [List.take, ha, hb, hc, hd, he]
  | [] => simp [Norm.zipHere] at h
  | [a] => simp [Norm.zipHere] at h
  | [a, b] => simp [Norm.zipHere] at h
  | [a, b, c] => simp [Norm.zipHere] at h
  | [a, b, c, d] => simp [Norm.zipHere] at h

theorem zipScanAux_digits {prev : Option Char} {l m : List Char}
    (h : Norm.zipScanAux prev l = some m) :
    m.all Char.isDigit = true ∧ m ≠ [] := by
  induction l generalizing prev with
  | nil => simp [Norm.zipScanAux] at h
  | cons c t ih =>
    unfold Norm.zipScanAux at h
    by_cases hz : Norm.zipHere prev (c :: t) = true
    · rw [if_pos hz] at h
      obtain ⟨h1, h2⟩ := zipHere_digits hz
      cases h
      exact ⟨h1, h2⟩
    · rw [if_neg hz] at h
      exact ih h

theorem zipOrDefault_digits (l : List Char) :
    (Norm.zipOrDefault l).all Char.isDigit = true ∧ Norm.zipOrDefault l ≠ [] := by
  unfold Norm.zipOrDefault
  cases h : Norm.zipScan l with
  | none => decide
  | some m => exact zipScanAux_digits h

theorem parseRawAddress_zip (raw : List Char) :
    (Norm.parseRawAddress raw).zip.all Char.isDigit = true ∧
    (Norm.parseRawAddress raw).zip ≠ [] := by
  have h : (Norm.parseRawAddress raw).zip =
      Norm.zipOrDefault (((splitComma raw).map jsTrim).getD
        (((splitComma raw).map jsTrim).length - 1) []) := rfl
  rw [h]
  exact zipOrDefault_digits _

theorem computeDedupKey_canon (street city zip : List Char) :
    Norm.computeDedupKey street city zip = canonAlnum (street ++ city ++ zip) := rfl

theorem computeDedupKey_append (street city zip : List Char) :
    Norm.computeDedupKey street city zip =
      canonAlnum street ++ canonAlnum city ++ canonAlnum zip := by
  simp [Norm.computeDedupKey, canonAlnum, lowerList, List.filter_append]

theorem splitDash_no_dash (s : List Char) (h : ∀ c ∈ s, c ≠ '-') :
    splitDash s = [s] := by
  induction s with
  | nil => rfl
  | cons c t ih =>
    have hc : c ≠ '-' := h c (by simp)
    have ht := ih (fun x hx => h x (by simp [hx]))
    simp [splitDash, ht, hc]

theorem mem_key_lowerAlnum {c : Char} {street city zip : List Char}
    (h : c ∈ Norm.computeDedupKey street city zip) : isLowerAlnum c = true := by
  unfold Norm.computeDedupKey at h
  exact (List.mem_filter.mp h).2

theorem key_pattern_of_raw (raw : List Char) :
    matchesKeyPattern (dedupeKeyOfRawAddress raw) = true := by
  have hzip := parseRawAddress_zip raw
  have hkey : dedupeKeyOfRawAddress raw =
      canonAlnum (Norm.parseRawAddress raw).street ++
        canonAlnum (Norm.parseRawAddress raw).city ++
        (Norm.parseRawAddress raw).zip := by
    rw [dedupeKeyOfRawAddress, computeDedupKey_append]
    rw [show canonAlnum (Norm.parseRawAddress raw).zip =
        (Norm.parseRawAddress raw).zip from lower_digits _ hzip.1]
  have hne : dedupeKeyOfRawAddress raw ≠ [] := by
    rw [hkey]
    intro hcontra
    rcases List.append_eq_nil.mp hcontra with ⟨-, h2⟩
    exact hzip.2 h2
  have halnum : ∀ c ∈ dedupeKeyOfRawAddress raw, isLowerAlnum c = true := by
    intro c hc
    have hc2 : c ∈ Norm.computeDedupKey (Norm.parseRawAddress raw).street
        (Norm.parseRawAddress raw).city (Norm.parseRawAddress raw).zip := hc
    exact mem_key_lowerAlnum hc2
  have hnodash : ∀ c ∈ dedupeKeyOfRawAddress raw, c ≠ '-' := by
    intro c hc hdash
    have := halnum c hc
    rw [hdash] at this
    simp [isLowerAlnum, Char.le_def] at this
  rw [matchesKeyPattern, splitDash_no_dash _ hnodash]
  simp only [List.all_cons, List.all_nil, Bool.and_true]
  have hie : (dedupeKeyOfRawAddress raw).isEmpty = false := by
    cases hd : dedupeKeyOfRawAddress raw with
    | nil => exact absurd hd hne
    | cons a b => rfl
  rw [hie]
  simp only [Bool.not_false, Bool.true_and]
  rw [List.all_eq_true]
  exact halnum

theorem normalizeRawListing_isSome (env : Norm.NormEnv) (raw : RawListing) :
    (Norm.normalizeRawListing env raw).isSome = true := rfl

theorem processRow_eq (env : Norm.NormEnv) (enrich : PropertyListing → PropertyListing)
    (now2 : List Char) (raw : RawListing) (st : Pipeline.Store) :
    Pipeline.processRow env enrich now2 raw st =
      Pipeline.upsertListing enrich now2 (Norm.buildListing env raw) st := rfl

theorem upsertListing_result (enrich : PropertyListing → PropertyListing)
    (now2 : List Char) (x : PropertyListing) (st : Pipeline.Store) :
    (Pipeline.upsertListing enrich now2 x st).2 = .created ∨
    (Pipeline.upsertListing enrich now2 x st).2 = .updated := by
  unfold Pipeline.upsertListing
  cases h : Pipeline.findByDedupeKey st (Pipeline.upKey x) <;> simp

theorem processRow_result (env : Norm.NormEnv) (enrich : PropertyListing → PropertyListing)
    (now2 : List Char) (raw : RawListing) (st : Pipeline.Store) :
    (Pipeline.processRow env enrich now2 raw st).2 = .created ∨
    (Pipeline.processRow env enrich now2 raw st).2 = .updated := by
  rw [processRow_eq]
  exact upsertListing_result enrich now2 (Norm.buildListing env raw) st

theorem processRows_skip_count (env : Norm.NormEnv)
    (enrich : PropertyListing → PropertyListing) (now2 : List Char)
    (rows : List RawListing) (st : Pipeline.Store)
    (s : Pipeline.AdapterIngestionSummary) :
    (Pipeline.processRows env enrich now2 rows st s).2.itemsSkippedNormalization =
      s.itemsSkippedNormalization := by
  induction rows generalizing st s with
  | nil => rfl
  | cons raw rest ih =>
    have hstep : Pipeline.processRows env enrich now2 (raw :: rest) st s =
        Pipeline.processRows env enrich now2 rest
          (Pipeline.processRow env enrich now2 raw st).1
          (Pipeline.bumpRow s (Pipeline.processRow env enrich now2 raw st).2) := rfl
    rw [hstep, ih]
    rcases processRow_result env enrich now2 raw st with h | h <;> rw [h] <;> rfl

theorem find?_append_of_none {α : Type} (p : α → Bool) (l₁ l₂ : List α)
    (h : l₁.find? p = none) : (l₁ ++ l₂).find? p = l₂.find? p := by
  induction l₁ with
  | nil => rfl
  | cons a t ih =>
    rw [List.find?_cons] at h
    rw [List.cons_append, List.find?_cons]
    cases hp : p a with
    | true =>
      rw [hp] at h
      simp at h
    | false =>
      simp only [hp] at h ⊢
      exact ih h

theorem replaceFirstById_append {l : List PropertyListing} {x v : PropertyListing}
    {i : List Char} (h : ∀ p ∈ l, p.id ≠ i) (hx : x.id = i) :
    Pipeline.replaceFirstById (l ++ [x]) i v = l ++ [v] := by
  induction l with
  | nil => simp [Pipeline.replaceFirstById, hx]
  | cons a t ih =>
    have ha : a.id ≠ i := h a (by simp)
    rw [List.cons_append, Pipeline.replaceFirstById, if_neg ha]
    rw [ih (fun p hp => h p (by simp [hp]))]
    rfl

theorem upKey_buildListing (env : Norm.NormEnv) (raw : RawListing) :
    Pipeline.upKey (Norm.buildListing env raw) = rawDedupeKey raw := rfl

theorem calculateValuation_pos {e b : ℚ} (h : e > 0) :
    Norm.calculateValuation (some e) (some b) =
      { equityAmount := some (e - b), equityPct := some ((e - b) / e * 100) } := by
  show (if e > 0 then _ else _) = _
  rw [if_pos h]

theorem calculateValuation_nonpos {e b : ℚ} (h : ¬e > 0) :
    Norm.calculateValuation (some e) (some b) =
      { equityAmount := none, equityPct := none } := by
  show (if e > 0 then _ else _) = _
  rw [if_neg h]

theorem analyzeProperty_failure (o : Gemini.AIOutcome) (p : PropertyListing)
    (h : Gemini.isFailure o = true) :
    (Gemini.analyzeProperty o p).ai_score = some 0 ∧
    (Gemini.analyzeProperty o p).risk_band = .UNKNOWN ∧
    (Gemini.analyzeProperty o p).ai_summary = some (lc "AI Analysis Unavailable") := by
  cases o with
  | success a => simp [Gemini.isFailure] at h
  | noKey => exact ⟨rfl, rfl, rfl⟩
  | serviceError => exact ⟨rfl, rfl, rfl⟩
  | emptyResponse => exact ⟨rfl, rfl, rfl⟩
  | parseFailure => exact ⟨rfl, rfl, rfl⟩

theorem collectRows_append (l₁ l₂ : List SalesWeb.RowOutcome) :
    SalesWeb.collectRows (l₁ ++ l₂) =
      SalesWeb.collectRows l₁ ++ SalesWeb.collectRows l₂ := by
  induction l₁ with
  | nil => rfl
  | cons b t ih =>
    cases b with
    | throws => simpa [SalesWeb.collectRows] using ih
    | spacer => simpa [SalesWeb.collectRows] using ih
    | parsed r =>
      cases r with
      | none => simpa [SalesWeb.collectRows] using ih
      | some x => simp [SalesWeb.collectRows, ih]

/-! ## Claim theorems -/

/-- C1, counterexample.  The concrete dedupe-equivalence pair of the spec fails on
the code: `computeDedupKey` only lowercases and strips non-alphanumerics, so
the raw addresses "777  Messy   Road ,   Clifton  , NJ 07013 " and
"777 Messy Rd, Clifton Twp, NJ 07013" get different keys (the abbreviation
`Rd` and the suffix `Twp` survive into the key). -/
theorem C1_counterexample :
    dedupeKeyOfRawAddress (lc "777  Messy   Road ,   Clifton  , NJ 07013 ") ≠
      dedupeKeyOfRawAddress (lc "777 Messy Rd, Clifton Twp, NJ 07013") := by
  decide

/-- C1, amended.  Addresses that differ only in whitespace, case, or
punctuation — same canonical lowercase-alphanumeric projection — get equal
dedupe keys; USPS abbreviations and twp/boro suffixes are NOT normalized
away, and the concrete pair of the spec yields the two distinct keys
`777messyroadclifton07013` and `777messyrdcliftontwp07013`. -/
theorem C1_amended :
    (∀ s₁ c₁ z₁ s₂ c₂ z₂ : List Char,
        canonAlnum (s₁ ++ c₁ ++ z₁) = canonAlnum (s₂ ++ c₂ ++ z₂) →
        Norm.computeDedupKey s₁ c₁ z₁ = Norm.computeDedupKey s₂ c₂ z₂) ∧
    dedupeKeyOfRawAddress (lc "777  Messy   Road ,   Clifton  , NJ 07013 ") =
      lc "777messyroadclifton07013" ∧
    dedupeKeyOfRawAddress (lc "777 Messy Rd, Clifton Twp, NJ 07013") =
      lc "777messyrdcliftontwp07013" := by
  refine ⟨?_, by decide, by decide⟩
  intro s₁ c₁ z₁ s₂ c₂ z₂ h
  rw [computeDedupKey_canon, computeDedupKey_canon, h]

/-- C1, witness for the amended theorem at a concrete case/whitespace/
punctuation variation. -/
theorem C1_witness :
    canonAlnum (lc "123 Main St." ++ lc "Hoboken" ++ lc "07030") =
      canonAlnum (lc " 123  MAIN ST" ++ lc "hoboken," ++ lc "07030") ∧
    Norm.computeDedupKey (lc "123 Main St.") (lc "Hoboken") (lc "07030") =
      Norm.computeDedupKey (lc " 123  MAIN ST") (lc "hoboken,") (lc "07030") :=
  ⟨by decide, C1_amended.1 _ _ _ _ _ _ (by decide)⟩

/-- C2, counterexample.  On an enrichment failure the heuristic band is NOT
left in place: a listing whose heuristic band is `Low` comes back with band
`Unknown`, and the summary is "AI Analysis Unavailable", not "unavailable". -/
theorem C2_counterexample :
    sampleListing.ai_analysis.risk_band = .LOW ∧
    (Gemini.enrichListing .noKey (lc "t") sampleListing).ai_analysis.risk_band ≠
      sampleListing.ai_analysis.risk_band ∧
    (Gemini.enrichListing .noKey (lc "t") sampleListing).ai_analysis.ai_summary ≠
      some (lc "unavailable") := by
  refine ⟨rfl, by decide, by decide⟩

/-- C2, amended.  On every enrichment failure `enrichListing` resolves and
returns the input property with `ai_analysis` replaced wholesale by the
fallback (score 0, band `Unknown` — overwriting the heuristic band — summary
"AI Analysis Unavailable"), every non-AI field other than
`audit.last_updated` preserved; and the pipeline still records the property
(the row always takes the insert or the update path). -/
theorem C2_amended (o : Gemini.AIOutcome) (aiNow : List Char)
    (listing : PropertyListing) (h : Gemini.isFailure o = true) :
    ((Gemini.enrichListing o aiNow listing).ai_analysis.ai_score = some 0 ∧
      (Gemini.enrichListing o aiNow listing).ai_analysis.risk_band = .UNKNOWN ∧
      (Gemini.enrichListing o aiNow listing).ai_analysis.ai_summary =
        some (lc "AI Analysis Unavailable")) ∧
    ((Gemini.enrichListing o aiNow listing).id = listing.id ∧
      (Gemini.enrichListing o aiNow listing).address = listing.address ∧
      (Gemini.enrichListing o aiNow listing).source = listing.source ∧
      (Gemini.enrichListing o aiNow listing).foreclosure = listing.foreclosure ∧
      (Gemini.enrichListing o aiNow listing).valuation = listing.valuation ∧
      (Gemini.enrichListing o aiNow listing).occupancy = listing.occupancy ∧
      (Gemini.enrichListing o aiNow listing).notes = listing.notes ∧
      (Gemini.enrichListing o aiNow listing).audit.dedupe_key = listing.audit.dedupe_key ∧
      (Gemini.enrichListing o aiNow listing).audit.ingestion_timestamp =
        listing.audit.ingestion_timestamp) ∧
    (∀ (env : Norm.NormEnv) (now2 : List Char) (raw : RawListing) (st : Pipeline.Store),
      (Pipeline.processRow env (Gemini.enrichListing o aiNow) now2 raw st).2 =
          .created ∨
        (Pipeline.processRow env (Gemini.enrichListing o aiNow) now2 raw st).2 =
          .updated) := by
  refine ⟨?_, ⟨rfl, rfl, rfl, rfl, rfl, rfl, rfl, rfl, rfl⟩,
    fun env now2 raw st => processRow_result env _ now2 raw st⟩
  have h10 := analyzeProperty_failure o listing h
  exact ⟨h10.1, h10.2.1, h10.2.2⟩

/-- C2, witness for the amended theorem at the no-API-key failure. -/
theorem C2_witness :
    Gemini.isFailure .noKey = true ∧
    (Gemini.enrichListing .noKey (lc "t") sampleListing).ai_analysis.ai_summary =
      some (lc "AI Analysis Unavailable") ∧
    ((Pipeline.processRow sampleEnv (Gemini.enrichListing .noKey (lc "t")) (lc "n")
        sampleRaw emptyStore).2 = .created ∨
      (Pipeline.processRow sampleEnv (Gemini.enrichListing .noKey (lc "t")) (lc "n")
        sampleRaw emptyStore).2 = .updated) :=
  ⟨rfl, (C2_amended .noKey (lc "t") sampleListing rfl).1.2.2,
    (C2_amended .noKey (lc "t") sampleListing rfl).2.2 sampleEnv (lc "n") sampleRaw
      emptyStore⟩

/-- C3, counterexample.  A raw row with an empty, unparseable address and
neither price nor date nor status is NOT skipped: `normalizeRawListing`
returns a listing with the default address components instead of the null
sentinel. -/
theorem C3_counterexample :
    (Norm.normalizeRawListing sampleEnv sampleRawBad).isSome = true ∧
    sampleRawBad.raw_opening_bid = none ∧ sampleRawBad.raw_estimated_value = none ∧
    sampleRawBad.raw_sale_date = none ∧ sampleRawBad.raw_status_text = [] ∧
    (Norm.buildListing sampleEnv sampleRawBad).address.street = [] ∧
    (Norm.buildListing sampleEnv sampleRawBad).address.city = lc "Unknown City" ∧
    (Norm.buildListing sampleEnv sampleRawBad).address.zip = lc "00000" := by
  refine ⟨rfl, rfl, rfl, rfl, rfl, by decide, by decide, by decide⟩

/-- C3, amended.  `normalizeRawListing` never returns the skip sentinel —
unparseable addresses fall back to default components and missing money,
date and status fields become nulls — so no row is ever counted in
`itemsSkippedNormalization`: the pipeline increments that counter only when
the normalizer returns null, which never happens. -/
theorem C3_amended :
    (∀ (env : Norm.NormEnv) (raw : RawListing),
        (Norm.normalizeRawListing env raw).isSome = true) ∧
    (∀ (env : Norm.NormEnv) (enrich : PropertyListing → PropertyListing)
        (now2 : List Char) (raw : RawListing) (st : Pipeline.Store),
        (Pipeline.processRow env enrich now2 raw st).2 ≠ .skippedNorm) ∧
    (∀ (env : Norm.NormEnv) (enrich : PropertyListing → PropertyListing)
        (now2 : List Char) (rows : List RawListing) (st : Pipeline.Store)
        (s : Pipeline.AdapterIngestionSummary),
        (Pipeline.processRows env enrich now2 rows st s).2.itemsSkippedNormalization =
          s.itemsSkippedNormalization) := by
  refine ⟨fun env raw => rfl, ?_, processRows_skip_count⟩
  intro env enrich now2 raw st
  rcases processRow_result env enrich now2 raw st with h | h <;> rw [h] <;> decide

/-- C4, evaluation at the failing inputs.  The normalizeStage wired into
the pipeline lacks the nod, set-for-sale, resale and bid4assets keywords
and maps "NOD" and "Set for Sale" to `UNKNOWN`, and the dataService variant
checks PRE_FORECLOSURE first and lacks scheduled; the unit-test suite of
the repository and the duplicate normalization module (`NormV2`) give the
behaviour the claim states. -/
theorem C4_code_eval :
    Norm.normalizeStage none (lc "NOD") = .UNKNOWN ∧
    Norm.normalizeStage none (lc "Set for Sale") = .UNKNOWN ∧
    DataService.normalizeStage [] (lc "Scheduled") = .UNKNOWN ∧
    DataService.normalizeStage (lc "REO") (lc "Sheriff Sale") = .SHERIFF_SALE ∧
    NormV2.normalizeStage none (lc "NOD") = .PRE_FORECLOSURE ∧
    NormV2.normalizeStage none (lc "Set for Sale") = .SHERIFF_SALE ∧
    NormV2.normalizeStage (some (lc "REO")) (lc "Scheduled") = .REO := by
  decide

/-- C5, counterexample.  In `dataService.ts`, `calculateMetrics` treats a
zero opening bid as falsy: with estimated value 300000 and opening bid 0,
`equity_pct` is null although neither input is null and the estimate is
positive, so the claimed iff fails. -/
theorem C5_counterexample :
    (DataService.calculateMetrics (some (300000 : ℚ)) (some 0)).equity_pct = none ∧
    some (300000 : ℚ) ≠ none ∧ some (0 : ℚ) ≠ none ∧ ¬((300000 : ℚ) ≤ 0) := by
  refine ⟨rfl, by simp, by simp, by norm_num⟩

/-- C5, amended.  The claimed null condition and formula hold exactly for
the `calculateValuation` of the normalization engine; for the dataService
`calculateMetrics`, `equity_pct` is null iff the estimate or the bid is null
OR ZERO (JavaScript falsiness), and the formula holds whenever both are
nonzero (including negative estimates, which the claim would make null). -/
theorem C5_amended :
    (∀ est bid : Option ℚ,
        (Norm.calculateValuation est bid).equityPct = none ↔
          est = none ∨ bid = none ∨ ∃ e, est = some e ∧ e ≤ 0) ∧
    (∀ e b : ℚ, e > 0 →
        (Norm.calculateValuation (some e) (some b)).equityPct =
          some ((e - b) / e * 100)) ∧
    (∀ est bid : Option ℚ,
        (DataService.calculateMetrics est bid).equity_pct = none ↔
          (est = none ∨ est = some 0) ∨ (bid = none ∨ bid = some 0)) ∧
    (∀ e b : ℚ, e ≠ 0 → b ≠ 0 →
        (DataService.calculateMetrics (some e) (some b)).equity_pct =
          some ((e - b) / e * 100)) := by
  refine ⟨?_, ?_, ?_, ?_⟩
  · intro est bid
    match est, bid with
    | none, _ => simp [Norm.calculateValuation]
    | some e, none => simp [Norm.calculateValuation]
    | some e, some b =>
      by_cases h : e > 0
      · rw [calculateValuation_pos h]
        simp only [Option.some_ne_none, false_iff, not_or]
        refine ⟨by simp, by simp, ?_⟩
        rintro ⟨e', he', hle⟩
        rw [Option.some_inj] at he'
        subst he'
        exact absurd h (not_lt.mpr hle)
      · rw [calculateValuation_nonpos h]
        simp only [true_iff]
        exact Or.inr (Or.inr ⟨e, rfl, not_lt.mp h⟩)
  · intro e b h
    rw [calculateValuation_pos h]
  · intro est bid
    match est, bid with
    | none, _ => simp [DataService.calculateMetrics, DataService.jsFalsyNum]
    | some e, none => simp [DataService.calculateMetrics, DataService.jsFalsyNum]
    | some e, some b =>
      by_cases he : e = 0 <;> by_cases hb : b = 0 <;>
        simp [DataService.calculateMetrics, DataService.jsFalsyNum, he, hb]
  · intro e b he hb
    simp [DataService.calculateMetrics, DataService.jsFalsyNum, he, hb]

/-- C5, witness for the amended theorem: 300000 estimate and 150000 bid give
50 percent equity through `calculateValuation`. -/
theorem C5_witness :
    (Norm.calculateValuation (some (300000 : ℚ)) (some 150000)).equityPct =
      some 50 := by
  have h := C5_amended.2.1 300000 150000 (by norm_num)
  rw [h]
  norm_num

/-- C6, counterexample.  Over an arbitrary starting store the claim fails: a
store that already holds two properties under the dedupe key of the raw
listing
(reachable through the dedupe-free CSV import) sees both upserts take the
update path — no property is created — and still has two properties under
that key afterwards. -/
theorem C6_counterexample :
    (Pipeline.processRow sampleEnv (Gemini.enrichListing .noKey (lc "t1")) (lc "n1")
        sampleRaw sampleDupStore).2 = .updated ∧
    (Pipeline.processRow sampleEnv2 (Gemini.enrichListing .noKey (lc "t2")) (lc "n2")
        sampleRaw
        (Pipeline.processRow sampleEnv (Gemini.enrichListing .noKey (lc "t1")) (lc "n1")
          sampleRaw sampleDupStore).1).2 = .updated ∧
    ((Pipeline.processRow sampleEnv2 (Gemini.enrichListing .noKey (lc "t2")) (lc "n2")
        sampleRaw
        (Pipeline.processRow sampleEnv (Gemini.enrichListing .noKey (lc "t1")) (lc "n1")
          sampleRaw sampleDupStore).1).1.props.countP
      (fun p => p.audit.dedupe_key = rawDedupeKey sampleRaw) = 2) := by
  decide

/-- C6, amended.  When the starting store holds no property under the raw
dedupe key of the raw listing (and no stored id collides with the fresh UUID of the
first upsert), upserting the same raw listing twice creates exactly one
property under that key: the first call takes the insert path, the second
the update path, the store grows by exactly one, and no timeline entries are
written by either call (the pipeline writes none at all). -/
theorem C6_amended
    (env₁ env₂ : Norm.NormEnv) (o₁ o₂ : Gemini.AIOutcome) (an₁ an₂ now₁ now₂ : List Char)
    (raw : RawListing) (st : Pipeline.Store)
    (hkey : ∀ p ∈ st.props, p.audit.dedupe_key ≠ rawDedupeKey raw)
    (hid : ∀ p ∈ st.props, p.id ≠ env₁.uuid) :
    ((Pipeline.processRow env₁ (Gemini.enrichListing o₁ an₁) now₁ raw st).2 = .created) ∧
    ((Pipeline.processRow env₂ (Gemini.enrichListing o₂ an₂) now₂ raw
        (Pipeline.processRow env₁ (Gemini.enrichListing o₁ an₁) now₁ raw st).1).2 =
      .updated) ∧
    ((Pipeline.processRow env₂ (Gemini.enrichListing o₂ an₂) now₂ raw
        (Pipeline.processRow env₁ (Gemini.enrichListing o₁ an₁) now₁ raw st).1).1.props.countP
      (fun p => p.audit.dedupe_key = rawDedupeKey raw) = 1) ∧
    ((Pipeline.processRow env₂ (Gemini.enrichListing o₂ an₂) now₂ raw
        (Pipeline.processRow env₁ (Gemini.enrichListing o₁ an₁) now₁ raw st).1).1.props.length =
      st.props.length + 1) ∧
    ((Pipeline.processRow env₂ (Gemini.enrichListing o₂ an₂) now₂ raw
        (Pipeline.processRow env₁ (Gemini.enrichListing o₁ an₁) now₁ raw st).1).1.timeline =
      st.timeline) := by
  have hfind₁ : Pipeline.findByDedupeKey st (Pipeline.upKey (Norm.buildListing env₁ raw)) =
      none := by
    rw [upKey_buildListing, Pipeline.findByDedupeKey, List.find?_eq_none]
    intro p hp
    simp [hkey p hp]
  have e₁ : Pipeline.processRow env₁ (Gemini.enrichListing o₁ an₁) now₁ raw st =
      (Pipeline.insert st
        (Pipeline.mkToInsert now₁ (Pipeline.upKey (Norm.buildListing env₁ raw))
          (Gemini.enrichListing o₁ an₁ (Pipeline.withDedupe (Norm.buildListing env₁ raw)))),
        .created) := by
    rw [processRow_eq, Pipeline.upsertListing, hfind₁]
  set toIns := Pipeline.mkToInsert now₁ (Pipeline.upKey (Norm.buildListing env₁ raw))
    (Gemini.enrichListing o₁ an₁ (Pipeline.withDedupe (Norm.buildListing env₁ raw)))
    with htoIns
  have htoInsKey : toIns.audit.dedupe_key = rawDedupeKey raw := rfl
  have htoInsId : toIns.id = env₁.uuid := rfl
  have hprops₁ : (Pipeline.processRow env₁ (Gemini.enrichListing o₁ an₁) now₁ raw st).1.props =
      st.props ++ [toIns] := by
    rw [e₁]
    rfl
  have htime₁ : (Pipeline.processRow env₁ (Gemini.enrichListing o₁ an₁) now₁ raw st).1.timeline =
      st.timeline := by
    rw [e₁]
    rfl
  have hfindnone : st.props.find? (fun p => p.audit.dedupe_key = rawDedupeKey raw) = none := by
    rw [List.find?_eq_none]
    intro p hp
    simp [hkey p hp]
  have hfind₂ : Pipeline.findByDedupeKey
      (Pipeline.processRow env₁ (Gemini.enrichListing o₁ an₁) now₁ raw st).1
      (Pipeline.upKey (Norm.buildListing env₂ raw)) = some toIns := by
    rw [upKey_buildListing, Pipeline.findByDedupeKey, hprops₁,
      find?_append_of_none _ _ _ hfindnone, List.find?_cons]
    have hk : (decide (toIns.audit.dedupe_key = rawDedupeKey raw)) = true := by
      simp [htoInsKey]
    rw [hk]
  have e₂ : Pipeline.processRow env₂ (Gemini.enrichListing o₂ an₂) now₂ raw
      (Pipeline.processRow env₁ (Gemini.enrichListing o₁ an₁) now₁ raw st).1 =
      (Pipeline.updateById
        (Pipeline.processRow env₁ (Gemini.enrichListing o₁ an₁) now₁ raw st).1
        toIns.id
        (Pipeline.mkToUpdate now₂ (Pipeline.upKey (Norm.buildListing env₂ raw)) toIns
          (Gemini.enrichListing o₂ an₂ (Pipeline.withDedupe (Norm.buildListing env₂ raw)))),
        .updated) := by
    rw [processRow_eq, Pipeline.upsertListing, hfind₂]
  set toUp := Pipeline.mkToUpdate now₂ (Pipeline.upKey (Norm.buildListing env₂ raw)) toIns
    (Gemini.enrichListing o₂ an₂ (Pipeline.withDedupe (Norm.buildListing env₂ raw)))
    with htoUp
  have htoUpKey : toUp.audit.dedupe_key = rawDedupeKey raw := rfl
  have hrepl : Pipeline.replaceFirstById (st.props ++ [toIns]) toIns.id toUp =
      st.props ++ [toUp] := by
    refine replaceFirstById_append ?_ rfl
    intro p hp
    rw [htoInsId]
    exact hid p hp
  have hprops₂ : (Pipeline.processRow env₂ (Gemini.enrichListing o₂ an₂) now₂ raw
      (Pipeline.processRow env₁ (Gemini.enrichListing o₁ an₁) now₁ raw st).1).1.props =
      st.props ++ [toUp] := by
    rw [e₂]
    show Pipeline.replaceFirstById
      (Pipeline.processRow env₁ (Gemini.enrichListing o₁ an₁) now₁ raw st).1.props
      toIns.id toUp = st.props ++ [toUp]
    rw [hprops₁, hrepl]
  have htime₂ : (Pipeline.processRow env₂ (Gemini.enrichListing o₂ an₂) now₂ raw
      (Pipeline.processRow env₁ (Gemini.enrichListing o₁ an₁) now₁ raw st).1).1.timeline =
      st.timeline := by
    rw [e₂]
    show (Pipeline.processRow env₁ (Gemini.enrichListing o₁ an₁) now₁ raw st).1.timeline =
      st.timeline
    exact htime₁
  refine ⟨by rw [e₁], by rw [e₂], ?_, ?_, htime₂⟩
  · rw [hprops₂, List.countP_append]
    have h0 : st.props.countP (fun p => p.audit.dedupe_key = rawDedupeKey raw) = 0 := by
      rw [List.countP_eq_zero]
      intro p hp
      simp [hkey p hp]
    rw [h0]
    simp [List.countP_cons, htoUpKey]
  · rw [hprops₂]
    simp

/-- C6, witness for the amended theorem starting from the empty store. -/
theorem C6_witness :
    ((Pipeline.processRow sampleEnv (Gemini.enrichListing .noKey (lc "t1")) (lc "n1")
        sampleRaw emptyStore).2 = .created) ∧
    ((Pipeline.processRow sampleEnv2 (Gemini.enrichListing .noKey (lc "t2")) (lc "n2")
        sampleRaw
        (Pipeline.processRow sampleEnv (Gemini.enrichListing .noKey (lc "t1")) (lc "n1")
          sampleRaw emptyStore).1).2 = .updated) ∧
    ((Pipeline.processRow sampleEnv2 (Gemini.enrichListing .noKey (lc "t2")) (lc "n2")
        sampleRaw
        (Pipeline.processRow sampleEnv (Gemini.enrichListing .noKey (lc "t1")) (lc "n1")
          sampleRaw emptyStore).1).1.props.countP
      (fun p => p.audit.dedupe_key = rawDedupeKey sampleRaw) = 1) := by
  have h := C6_amended sampleEnv sampleEnv2 .noKey .noKey (lc "t1") (lc "t2") (lc "n1")
    (lc "n2") sampleRaw emptyStore (by intro p hp; cases hp) (by intro p hp; cases hp)
  exact ⟨h.1, h.2.1, h.2.2.1⟩

/-- C7.  A whole-page failure of the SalesWeb adapter (fetch error or
missing data table) yields an empty batch — `search` is a total function and
never throws — and a failing row (a thrown row handler, a spacer row, or a
row whose mandatory address is missing) is skipped without affecting any
other row of the batch. -/
theorem C7_theorem :
    (∀ detail : RawListing → Option RawListing,
        SalesWeb.search detail .fetchError = [] ∧ SalesWeb.search detail .noTable = []) ∧
    (∀ (detail : RawListing → Option RawListing)
        (pre post : List SalesWeb.RowOutcome) (b : SalesWeb.RowOutcome),
        isRowFailure b = true →
        SalesWeb.search detail (.table (pre ++ b :: post)) =
          SalesWeb.search detail (.table (pre ++ post))) := by
  refine ⟨fun detail => ⟨rfl, rfl⟩, ?_⟩
  intro detail pre post b hb
  show SalesWeb.enrichListings detail (SalesWeb.collectRows (pre ++ b :: post)) =
    SalesWeb.enrichListings detail (SalesWeb.collectRows (pre ++ post))
  have hdrop : SalesWeb.collectRows (b :: post) = SalesWeb.collectRows post := by
    cases b with
    | throws => rfl
    | spacer => rfl
    | parsed r =>
      cases r with
      | none => rfl
      | some x => simp [isRowFailure] at hb
  rw [collectRows_append, hdrop, ← collectRows_append]

/-- C7, witness at a concrete thrown row. -/
theorem C7_witness :
    isRowFailure .throws = true ∧
    SalesWeb.search (fun _ => none) (.table [.throws, .parsed (some sampleRaw)]) =
      SalesWeb.search (fun _ => none) (.table [.parsed (some sampleRaw)]) :=
  ⟨rfl, C7_theorem.2 (fun _ => none) [] [.parsed (some sampleRaw)] .throws rfl⟩

/-- C8, counterexample.  Over arbitrary component strings the pattern claim
fails: the all-empty address produces the empty key, which does not match
`^[a-z0-9]+(-[a-z0-9]+)*$`. -/
theorem C8_counterexample :
    matchesKeyPattern (Norm.computeDedupKey [] [] []) = false := by
  decide

/-- C8, amended.  Every dedupe key consists solely of `[a-z0-9]` characters
(hyphens never survive the filter), and every address that comes out of
`parseRawAddress` — whose zip is always a nonempty digit string — produces a
nonempty key matching `^[a-z0-9]+(-[a-z0-9]+)*$`. -/
theorem C8_amended :
    (∀ street city zip : List Char,
        (Norm.computeDedupKey street city zip).all isLowerAlnum = true) ∧
    (∀ raw : List Char, matchesKeyPattern (dedupeKeyOfRawAddress raw) = true) := by
  refine ⟨?_, key_pattern_of_raw⟩
  intro street city zip
  rw [List.all_eq_true]
  intro c hc
  exact mem_key_lowerAlnum hc

/-- C9.  Running the pipeline for a saved-search id with no matching
`SavedSearch` rejects with the "not found" error before the adapter loop:
no adapter is invoked and the pipeline state (property store included) is
returned unchanged. -/
theorem C9_theorem (deps : Pipeline.PipelineDeps) (env : Norm.NormEnv)
    (now2 startedAt finishedAt savedSearchId : List Char) (s : Pipeline.PipeState)
    (h : deps.savedSearchRepo savedSearchId = none) :
    Pipeline.runForSavedSearch deps env now2 startedAt finishedAt savedSearchId s =
      (.error (lc "SavedSearch " ++ savedSearchId ++ lc " not found"), s) := by
  rw [Pipeline.runForSavedSearch, h]

/-- C9, witness at a repository with no saved searches. -/
theorem C9_witness :
    sampleDeps.savedSearchRepo (lc "missing-search") = none ∧
    Pipeline.runForSavedSearch sampleDeps sampleEnv (lc "t") (lc "t0") (lc "t1")
        (lc "missing-search") { store := emptyStore, adapterCalls := 0 } =
      (.error (lc "SavedSearch " ++ lc "missing-search" ++ lc " not found"),
        { store := emptyStore, adapterCalls := 0 }) :=
  ⟨rfl, C9_theorem sampleDeps sampleEnv (lc "t") (lc "t0") (lc "t1") (lc "missing-search")
    { store := emptyStore, adapterCalls := 0 } rfl⟩

/-- C10.  `analyzeProperty` is total at its interface — in this embedding it
is a total function, it resolves on every path — and on every failure path
(absent API key, service error, empty response, JSON parse failure) it
returns the fallback analysis with score 0, band `Unknown`, and summary
"AI Analysis Unavailable". -/
theorem C10_theorem (o : Gemini.AIOutcome) (p : PropertyListing)
    (h : Gemini.isFailure o = true) :
    (Gemini.analyzeProperty o p).ai_score = some 0 ∧
    (Gemini.analyzeProperty o p).risk_band = .UNKNOWN ∧
    (Gemini.analyzeProperty o p).ai_summary = some (lc "AI Analysis Unavailable") :=
  analyzeProperty_failure o p h

/-- C10, witness at the absent-API-key path. -/
theorem C10_witness :
    Gemini.isFailure .noKey = true ∧
    (Gemini.analyzeProperty .noKey sampleListing).ai_score = some 0 ∧
    (Gemini.analyzeProperty .noKey sampleListing).risk_band = .UNKNOWN ∧
    (Gemini.analyzeProperty .noKey sampleListing).ai_summary =
      some (lc "AI Analysis Unavailable") :=
  ⟨rfl, C10_theorem .noKey sampleListing rfl⟩

/-- C3, witness for the amended theorem at the degenerate raw row. -/
theorem C3_witness :
    (Pipeline.processRow sampleEnv (fun p => p) (lc "n") sampleRawBad emptyStore).2 ≠
      Pipeline.RowResult.skippedNorm :=
  C3_amended.2.1 sampleEnv (fun p => p) (lc "n") sampleRawBad emptyStore
